import Mathlib

/-!
Verification development for the checkmatic repository's input-validation and
request-orchestration core (app/api/analyze/route.js and
app/api/detection/detection-logic.js).

The JavaScript source is shallowly embedded: each source function becomes a
Lean definition of the same name, throwing code is modelled with
`Except String` carrying the exact thrown message, and external collaborators
(DOMPurify, the network, the ipaddr.js library) are modelled by function
parameters or by their documented API, as noted at each definition. Strings are modelled as sequences of characters; the
source's `.length` counts UTF-16 code units, which coincides on the ASCII
inputs considered here.
-/

/-- The ASCII whitespace characters relevant to JavaScript's trim and the
regex class backslash-s on the inputs considered here. -/
def isJsSpace (c : Char) : Bool :=
  c = ' ' || c = '\t' || c = '\n' || c = '\r' || c = '\x0b' || c = '\x0c'

/-- The list of characters isJsSpace accepts. -/
def spaceChars : List Char := [' ', '\t', '\n', '\r', '\x0b', '\x0c']

deriving instance DecidableEq for Except

/-- Remove trailing whitespace. -/
def dropTrailing : List Char → List Char
  | [] => []
  | c :: cs => if dropTrailing cs = [] ∧ isJsSpace c then [] else c :: dropTrailing cs

/-- Model of JavaScript String.prototype.trim on the character list. -/
def jsTrimL (cs : List Char) : List Char :=
  dropTrailing (cs.dropWhile isJsSpace)

/-- Model of JavaScript String.prototype.trim. -/
def jsTrim (s : String) : String := ⟨jsTrimL s.data⟩

/-- If `pat` (already lowercased) matches case-insensitively at the head of
`cs`, return the rest of `cs`; regexes in the source carry the i flag. -/
def prefixOfCI : List Char → List Char → Option (List Char)
  | [], cs => some cs
  | _ :: _, [] => none
  | k :: ks, c :: cs => if c.toLower = k then prefixOfCI ks cs else none

/-- If `pat` matches exactly at the head of `cs`, return the rest of `cs`. -/
def prefixRest : List Char → List Char → Option (List Char)
  | [], cs => some cs
  | _ :: _, [] => none
  | k :: ks, c :: cs => if c = k then prefixRest ks cs else none

/-- Case-sensitive substring test: model of JavaScript String.includes. -/
def containsSub (needle : List Char) : List Char → Bool
  | [] => (prefixRest needle []).isSome
  | c :: cs => (prefixRest needle (c :: cs)).isSome || containsSub needle cs

/-- Case-insensitive substring test (`needle` lowercased): model of a /pat/i
regex test for a plain-text pattern. -/
def containsSubCI (needle : List Char) : List Char → Bool
  | [] => (prefixOfCI needle []).isSome
  | c :: cs => (prefixOfCI needle (c :: cs)).isSome || containsSubCI needle cs

/-- Word character of the regex word-boundary: letters, digits, underscore. -/
def isWordChar (c : Char) : Bool := c.isAlpha || c.isDigit || c = '_'

/-- There is a word boundary between a word character and this position. -/
def boundaryAfter : List Char → Bool
  | [] => true
  | c :: _ => !isWordChar c

/-- One of the keywords matches here, followed by a word boundary. -/
def kwHit (kws : List (List Char)) (cs : List Char) : Bool :=
  kws.any fun kw =>
    match prefixOfCI kw cs with
    | some rest => boundaryAfter rest
    | none => false

/-- Scan for a keyword occurrence delimited by word boundaries on both sides:
model of a backslash-b(alt1|alt2|...)backslash-b regex test with the i flag.
The flag records whether the previous character was a word character. -/
def kwScan (kws : List (List Char)) : Bool → List Char → Bool
  | _, [] => false
  | prevW, c :: cs => (!prevW && kwHit kws (c :: cs)) || kwScan kws (isWordChar c) cs

/-- One of the protocol keywords (each ending in a colon) matches here. -/
def protoHit (kws : List (List Char)) (cs : List Char) : Bool :=
  kws.any fun kw => (prefixOfCI kw cs).isSome

/-- Scan for a protocol keyword at the start of the text or after whitespace:
model of the (caret|backslash-s)(javascript|data|vbscript): regex test. The
flag records whether this position follows the start or a whitespace. -/
def protoScan (kws : List (List Char)) : Bool → List Char → Bool
  | _, [] => false
  | b, c :: cs => (b && protoHit kws (c :: cs)) || protoScan kws (isJsSpace c) cs

/-- The SQL keyword alternatives of the first injection pattern. -/
def sqlKeywords : List (List Char) :=
  ["union".data, "select".data, "insert".data, "update".data, "delete".data,
   "drop".data, "exec".data, "execute".data, "declare".data, "alter".data]

/-- The function-name alternatives of the second injection pattern
(eval, setTimeout, setInterval), lowercased for the case-insensitive match. -/
def timerKeywords : List (List Char) :=
  ["eval".data, "settimeout".data, "setinterval".data]

/-- The protocol alternatives of the third injection pattern, with the colon. -/
def protoKeywords : List (List Char) :=
  ["javascript:".data, "data:".data, "vbscript:".data]

/-- The three injectionPatterns tests of route.js sanitizeText. -/
def injMatchL (cs : List Char) : Bool :=
  kwScan sqlKeywords false cs || kwScan timerKeywords false cs ||
    protoScan protoKeywords true cs

/-- Model of route.js sanitizeText. The DOMPurify.sanitize external library
call is the function parameter `dp`; the source's typeof-string guard cannot
fire on a typed String argument. The length check runs on the trimmed
sanitized text, the injection patterns on the untrimmed sanitized text,
exactly as in the source. -/
def sanitizeText (dp : String → String) (text : String) (skipInjectionCheck : Bool) :
    Except String String :=
  if 50000 < (jsTrim (dp text)).data.length then
    .error "Text content too large (maximum 50KB allowed)"
  else if !skipInjectionCheck && injMatchL (dp text).data then
    .error "Potentially malicious content detected"
  else .ok (jsTrim (dp text))

/-!
## URL model

`validateURL` parses its input with the WHATWG URL constructor. Only the
fragment of URL parsing that the validator consumes is modelled: scheme,
and the serialized hostname (lowercased; IPv6 hosts keep their brackets, as
the WHATWG serialization does). Hosts whose last label is purely numeric are
required to be canonical dotted-decimal IPv4 (the parser's octal/hex/short
IPv4 forms are not modelled); percent-encoding and non-ASCII domains are out
of scope.
-/

structure URLParts where
  protocol : String
  hostname : String
deriving Repr, DecidableEq

/-- Lowercase every character (ASCII). -/
def toLowerL (cs : List Char) : List Char := cs.map Char.toLower

def isHexDigitCh (c : Char) : Bool :=
  c.isDigit || ('a' ≤ c && c ≤ 'f') || ('A' ≤ c && c ≤ 'F')

/-- A character that terminates the authority component. -/
def isAuthorityEnd (c : Char) : Bool :=
  c = '/' || c = '?' || c = '#' || c = '\\'

/-- Characters the URL host parser rejects in a non-bracketed host. -/
def isForbiddenHostChar (c : Char) : Bool :=
  c = '\x00' || c = ' ' || c = '#' || c = '/' || c = ':' || c = '<' || c = '>' ||
  c = '?' || c = '@' || c = '[' || c = '\\' || c = ']' || c = '^' || c = '|' || c = '"'

/-- The decimal value of a digit list. -/
def decValue (cs : List Char) : Nat :=
  cs.foldl (fun a c => a * 10 + (c.toNat - 48)) 0

/-- Split a character list on a separator character. -/
def splitOnChar (sep : Char) : List Char → List (List Char)
  | [] => [[]]
  | c :: cs =>
    if c = sep then [] :: splitOnChar sep cs
    else
      match splitOnChar sep cs with
      | [] => [[c]]
      | p :: ps => (c :: p) :: ps

/-- A canonical dotted-decimal IPv4 octet: digits without a leading zero,
value at most 255. -/
def isCanonOctet (cs : List Char) : Bool :=
  cs ≠ [] && cs.all Char.isDigit && (cs = ['0'] || cs.head? ≠ some '0') &&
    decValue cs ≤ 255

/-- Parse a canonical dotted-decimal IPv4 literal into its four octets. -/
def parseCanonIPv4 (cs : List Char) : Option (Nat × Nat × Nat × Nat) :=
  match splitOnChar '.' cs with
  | [a, b, c, d] =>
    if isCanonOctet a && isCanonOctet b && isCanonOctet c && isCanonOctet d then
      some (decValue a, decValue b, decValue c, decValue d)
    else none
  | _ => none

/-- The part of the authority after the last at-sign (userinfo stripped). -/
def afterLastAt (cs : List Char) : List Char :=
  (cs.reverse.takeWhile (· ≠ '@')).reverse

/-- Whether a label is purely decimal digits. -/
def isNumericLabel (cs : List Char) : Bool :=
  cs ≠ [] && cs.all Char.isDigit

/-- The URL parser treats a host whose last non-empty dot-label is numeric as
an IPv4 address. -/
def lastLabelNumeric (cs : List Char) : Bool :=
  match ((splitOnChar '.' cs).filter (· ≠ [])).getLast? with
  | some l => isNumericLabel l
  | none => false

/-- Valid port: empty, or digits of value at most 65535. -/
def validPort (cs : List Char) : Bool :=
  cs.all Char.isDigit && decValue cs ≤ 65535

/-- Parse the host-and-port part of the authority, returning the serialized
hostname (lowercased; brackets kept on IPv6 hosts). -/
def parseHostPort (hp : List Char) : Option (List Char) :=
  match hp with
  | '[' :: rest =>
    let inside := rest.takeWhile (· ≠ ']')
    match rest.dropWhile (· ≠ ']') with
    | [] => none
    | _ :: tail =>
      let portOk :=
        match tail with
        | [] => true
        | ':' :: p => validPort p
        | _ => false
      if portOk && inside ≠ [] &&
          inside.all (fun c => isHexDigitCh c || c = ':' || c = '.') then
        some ('[' :: (toLowerL inside ++ [']']))
      else none
  | _ =>
    let host := hp.takeWhile (· ≠ ':')
    let portOk :=
      match hp.dropWhile (· ≠ ':') with
      | [] => true
      | _ :: p => validPort p
    if portOk && host ≠ [] && host.all (fun c => !isForbiddenHostChar c) then
      let lower := toLowerL host
      if lastLabelNumeric lower then
        if (parseCanonIPv4 lower).isSome then some lower else none
      else some lower
    else none

/-- Model of `new URL(t)` for the strings validateURL hands it, which always
start with the literal prefix http:// or https:// after the scheme-prepending
step. Returns the pieces the validator consumes. -/
def parseHttpURL (t : String) : Option URLParts :=
  let cs := t.data
  let rest? : Option (String × List Char) :=
    if "http://".data.isPrefixOf cs then some ("http:", cs.drop 7)
    else if "https://".data.isPrefixOf cs then some ("https:", cs.drop 8)
    else none
  match rest? with
  | none => none
  | some (proto, rest) =>
    let auth := (rest.dropWhile (fun c => c = '/' || c = '\\')).takeWhile
      (fun c => !isAuthorityEnd c)
    match parseHostPort (afterLastAt auth) with
    | none => none
    | some host => some ⟨proto, ⟨host⟩⟩

/-!
## validateURL (route.js)

Thrown errors are modelled as `Except.error` with the exact message. The
ipaddr.js library exposes range classification only through the range()
method: its address objects have no isPrivate, isLoopback, isLinkLocal or
isBroadcast methods. The source nevertheless calls addr.isPrivate() first,
so for every hostname ipaddr.isValid accepts — private, public or multicast
alike — that call throws a TypeError, modelled below as the thrown
method-missing message. URL hostnames carry IPv6 addresses in bracketed
form, which ipaddr.isValid rejects, so bracketed IPv6 hostnames skip the
whole branch and are accepted.
-/

/-- The /(?:backslash-slash|caret)backslash-dot-dot(?:slash|dollar)/ path
traversal test: a dot-dot segment bounded by a slash or the string edge.
The flag records whether the position follows the start or a slash. -/
def dotDotHere (atSeg : Bool) (cs : List Char) : Bool :=
  atSeg && "..".data.isPrefixOf cs && (cs.drop 2 = [] || (cs.drop 2).head? = some '/')

def dotDotScan (atSeg : Bool) : List Char → Bool
  | [] => false
  | c :: cs => dotDotHere atSeg (c :: cs) || dotDotScan (c = '/') cs

def dotDotSegment (cs : List Char) : Bool := dotDotScan true cs

/-- The suspiciousPatterns tests of validateURL, applied to the whole URL. -/
def urlSuspicious (cs : List Char) : Bool :=
  containsSubCI "javascript:".data cs || containsSubCI "data:".data cs ||
  containsSubCI "file:".data cs || containsSubCI "ftp:".data cs ||
  containsSubCI "<script".data cs || dotDotSegment cs

/-- The fixed local-hostname denylist of validateURL. -/
def suspiciousHostnames : List String :=
  ["localhost", "0.0.0.0", "::1", "ip6-localhost", "ip6-loopback", "broadcasthost"]

/-- Approximation of ipaddr.js validity for an unbracketed IPv6 literal:
hex groups separated by colons. Unreachable from a parsed URL hostname
(those carry brackets); kept for completeness of the source's branch. -/
def isIPv6Literal (cs : List Char) : Bool :=
  cs.any (· = ':') && cs ≠ [] && cs.all (fun c => isHexDigitCh c || c = ':') &&
  (splitOnChar ':' cs).all (fun g => g.length ≤ 4) &&
  decide (((splitOnChar ':' cs).filter (· ≠ [])).length ≤ 8)

/-- Model of ipaddr.isValid on URL-serialized hostnames: a canonical
dotted-decimal IPv4 literal or an unbracketed IPv6 literal. (ipaddr.js also
accepts non-canonical IPv4 spellings, but WHATWG URL hostnames are already
canonical, so those spellings are unreachable here; a bracketed IPv6
hostname is not valid ipaddr.js input.) -/
def ipaddrIsValid (cs : List Char) : Bool :=
  (parseCanonIPv4 cs).isSome || isIPv6Literal cs

/-- The TypeError the SSRF branch actually throws: ipaddr.js address objects
expose range classification only through range() and have no isPrivate
method, so the source's addr.isPrivate() call fails for every hostname that
ipaddr.isValid accepts, before any range is ever consulted (message as V8
renders it). -/
def ipaddrNoMethodMsg : String := "addr.isPrivate is not a function"

/-- The message of every SSRF rejection in validateURL. -/
def pnaMsg : String := "Access to private/local URLs is not allowed"

/-- The scheme-prepending step: a trimmed URL without a literal http:// or
https:// prefix gets https:// prepended (JavaScript startsWith is
case-sensitive). -/
def withScheme (t : String) : String :=
  if "http://".data.isPrefixOf t.data || "https://".data.isPrefixOf t.data then t
  else "https://" ++ t

/-- The parsing and checking part of validateURL, after trimming and scheme
prepending; mirrors the source statement by statement. -/
def validateURLRest (t : String) : Except String String :=
  match parseHttpURL t with
  | none => .error "Invalid URL format"
  | some parsedUrl =>
    if ¬(parsedUrl.protocol = "http:" ∨ parsedUrl.protocol = "https:") then
      .error "Only HTTP and HTTPS URLs are allowed"
    else if 2048 < t.data.length then
      .error "URL too long (maximum 2048 characters allowed)"
    else if urlSuspicious t.data then
      .error "URL contains potentially malicious content"
    else if suspiciousHostnames.contains ⟨toLowerL parsedUrl.hostname.data⟩ then
      .error pnaMsg
    else if ipaddrIsValid parsedUrl.hostname.data then
      .error ipaddrNoMethodMsg
    else .ok t

/-- Model of route.js validateURL. The null/typeof guard reduces to the
empty-string (falsy) case on a typed String argument. -/
def validateURL (url : String) : Except String String :=
  if url = "" then .error "URL is required and must be a string"
  else if jsTrim url = "" then .error "URL cannot be empty"
  else validateURLRest (withScheme (jsTrim url))

/-!
## validatePhoto (route.js)
-/

/-- The photo descriptor destructured by validatePhoto. The source field
holding the MIME type is named `type`, a Lean keyword, so it is `mimeType`
here. -/
structure Photo where
  data : String
  name : String
  size : Int
  mimeType : String
deriving Repr, DecidableEq

/-- The MIME type allow-list of validatePhoto. -/
def allowedTypes : List String :=
  ["image/jpeg", "image/jpg", "image/png", "image/gif", "image/webp", "image/bmp"]

/-- Case-insensitive dollar-anchored suffix test: model of a /pat$/i test. -/
def endsWithCI (suf : String) (s : String) : Bool :=
  (toLowerL suf.data).reverse.isPrefixOf (toLowerL s.data).reverse

/-- The suspiciousPatterns tests validatePhoto runs on the filename. -/
def photoNameSuspicious (name : String) : Bool :=
  containsSub "..".data name.data || containsSubCI "<script".data name.data ||
  containsSubCI "javascript:".data name.data ||
  [".exe", ".bat", ".cmd", ".scr", ".com", ".pif"].any (fun e => endsWithCI e name) ||
  [".php", ".asp", ".jsp", ".py"].any (fun e => endsWithCI e name)

/-- The remainder after the first occurrence of `sep` in `cs` (none when
`sep` does not occur). -/
def afterSub (sep : List Char) : List Char → Option (List Char)
  | [] => prefixRest sep []
  | c :: cs =>
    match prefixRest sep (c :: cs) with
    | some rest => some rest
    | none => afterSub sep cs

/-- The part of `cs` before the first occurrence of `sep` (`cs` itself when
`sep` does not occur). -/
def beforeSub (sep : List Char) : List Char → List Char
  | [] => []
  | c :: cs =>
    if (prefixRest sep (c :: cs)).isSome then []
    else c :: beforeSub sep cs

/-- Entry [1] of JavaScript String.split(sep): the text between the first
occurrence of the separator and the next one (or the end). -/
def splitSecond (sep : List Char) (cs : List Char) : Option (List Char) :=
  (afterSub sep cs).map (beforeSub sep)

/-- Model of route.js validatePhoto. The null/typeof-object guard cannot fire
on a typed Photo value; the destructured-field falsiness guard reduces to the
empty-string cases (size is always a number on the typed value). -/
def validatePhoto (photoData : Photo) : Except String Photo :=
  if photoData.data = "" ∨ photoData.name = "" ∨ photoData.mimeType = "" then
    .error "Photo data is incomplete or invalid"
  else if 10 * 1024 * 1024 < photoData.size then
    .error "Photo size too large (maximum 10MB allowed)"
  else if photoData.size ≤ 0 then
    .error "Invalid photo size"
  else if ¬(allowedTypes.contains ⟨toLowerL photoData.mimeType.data⟩) then
    .error "Unsupported file type. Only JPEG, PNG, GIF, WebP, and BMP are allowed"
  else if photoNameSuspicious photoData.name then
    .error "Photo name contains potentially malicious content"
  else if 255 < photoData.name.data.length then
    .error "Photo name too long (maximum 255 characters allowed)"
  else if photoData.name.data.length = 0 then
    .error "Photo name cannot be empty"
  else if ¬("data:image/".data.isPrefixOf photoData.data.data ∧
      containsSub "base64,".data photoData.data.data = true) then
    .error "Invalid photo data format - must be base64 encoded image"
  else
    match splitSecond "base64,".data photoData.data.data with
    | none => .error "Invalid or corrupted photo data"
    | some base64Data =>
      if base64Data.length < 100 then .error "Invalid or corrupted photo data"
      else .ok photoData

/-!
## safeFetchWithRetry (identical in route.js and detection-logic.js)

The network is an oracle mapping the attempt number to that attempt's
outcome: either a response (status, statusText, and the result of res.json())
or a transport failure. The model returns the loop's result together with
the number of fetch calls issued. A 429 with attempts remaining retries
after backoff; every other failure inside the try block (non-2xx status,
json failure, transport failure) is caught and retried unless this was the
final attempt; falling out of the loop returns JavaScript undefined,
modelled as `Except.ok none`.
-/

inductive FetchOutcome (J : Type) where
  | resp (status : Nat) (statusText : String) (body : Except String J)
  | fail (msg : String)

/-- The message of the error thrown for a non-ok response. -/
def apiErrorMsg (status : Nat) (statusText : String) : String :=
  "API error " ++ toString status ++ ": " ++ statusText

def safeFetchGo {J : Type} (f : Nat → FetchOutcome J) (retries attempt calls : Nat) :
    Except String (Option J) × Nat :=
  if _h : attempt < retries then
    match f attempt with
    | .resp st stt body =>
      if 200 ≤ st ∧ st ≤ 299 then
        match body with
        | .ok j => (.ok (some j), calls + 1)
        | .error m =>
          if attempt = retries - 1 then (.error m, calls + 1)
          else safeFetchGo f retries (attempt + 1) (calls + 1)
      else if st = 429 ∧ attempt < retries - 1 then
        safeFetchGo f retries (attempt + 1) (calls + 1)
      else if attempt = retries - 1 then (.error (apiErrorMsg st stt), calls + 1)
      else safeFetchGo f retries (attempt + 1) (calls + 1)
    | .fail m =>
      if attempt = retries - 1 then (.error m, calls + 1)
      else safeFetchGo f retries (attempt + 1) (calls + 1)
  else (.ok none, calls)
termination_by retries - attempt
decreasing_by all_goals omega

/-- Model of safeFetchWithRetry: run the retry loop from attempt 0. -/
def safeFetchWithRetry {J : Type} (f : Nat → FetchOutcome J) (retries : Nat) :
    Except String (Option J) × Nat :=
  safeFetchGo f retries 0 0

/-!
## Detection orchestrator (detection-logic.js)

The three Hugging Face inference calls and the LLM synthesis call are network
oracles (each standing for its safeFetchWithRetry round trip, applied to the
exact text the source sends). The sarcasm response is inspected by the source
(result[0]?.find on the LABEL_1 entry), so its payload shape is concrete;
the zero-shot and political-bias payloads and the synthesis verdict are
opaque type parameters.
-/

/-- One label/score entry of a Hugging Face classifier response. Scores are
modelled as rationals. -/
structure LabelScore where
  label : String
  score : Rat
deriving Repr, DecidableEq

/-- detectSarcasm's return value: the raw response plus the extracted score. -/
structure SarcasmRes where
  raw : List (List LabelScore)
  score : Rat
deriving Repr, DecidableEq

/-- detection-logic.js sanitizeText: encode angle brackets, then trim. The
non-string branch (return the empty string) cannot fire on a typed String. -/
def replaceCharL (c : Char) (r : List Char) : List Char → List Char
  | [] => []
  | x :: xs => (if x = c then r else [x]) ++ replaceCharL c r xs

def detectionSanitizeText (text : String) : String :=
  ⟨jsTrimL (replaceCharL '>' "&gt;".data (replaceCharL '<' "&lt;".data text.data))⟩

/-- Model of JavaScript String.slice(0, n). -/
def jsSlice (n : Nat) (s : String) : String := ⟨s.data.take n⟩

/-- MODELS.sarcasm.maxLength. -/
def sarcasmMaxLength : Nat := 2000

/-- MODELS.politicalBias.maxLength. -/
def politicalBiasMaxLength : Nat := 500

/-- The text detectSarcasm sends for a given orchestrator input (the
sanitized text truncated to the sarcasm model's maximum length). -/
def sarcasmSentText (text : String) : String :=
  jsSlice sarcasmMaxLength (detectionSanitizeText text)

/-- The text detectPoliticalBias sends for a given orchestrator input. -/
def politicalBiasSentText (text : String) : String :=
  jsSlice politicalBiasMaxLength (detectionSanitizeText text)

/-- The probability of the sarcastic class: the score of the LABEL_1 entry of
the first row of the response, 0 when absent. -/
def extractSarcasmScore (result : List (List LabelScore)) : Rat :=
  match result.head? with
  | none => 0
  | some items =>
    match items.find? (fun it => it.label == "LABEL_1") with
    | none => 0
    | some it => it.score

/-- Model of detectSarcasm: truncate, call the model, extract the score. -/
def detectSarcasm (sarFetch : String → Except String (List (List LabelScore)))
    (text : String) : Except String SarcasmRes :=
  (sarFetch (jsSlice sarcasmMaxLength text)).map fun raw =>
    ⟨raw, extractSarcasmScore raw⟩

/-- Model of classifyZeroShot: the full text and the label set are sent. -/
def classifyZeroShot {Z : Type} (zsFetch : String → List String → Except String Z)
    (text : String) (labels : List String) : Except String Z :=
  zsFetch text labels

/-- Model of detectPoliticalBias: truncate to 500 characters and send. -/
def detectPoliticalBias {B : Type} (pbFetch : String → Except String B)
    (text : String) : Except String B :=
  pbFetch (jsSlice politicalBiasMaxLength text)

/-- The per-model entries of the structured synthesis error object:
promiseResult.reason?.message is the captured message for a rejected call and
JavaScript undefined (here none) for a fulfilled one. -/
structure FailDetails where
  sarcasm : Option String
  zeroShot : Option String
  politicalBias : Option String
deriving Repr, DecidableEq

/-- The synthesis slot of the combined result: either the synthesis stage's
verdict, or the structured error object built when a model call failed. -/
inductive SynthField (S : Type) where
  | ran (verdict : S)
  | failedModels (err : String) (details : FailDetails)
deriving Repr, DecidableEq

/-- The combined result detectContent returns. -/
structure CombinedResult (Z B S : Type) where
  synthesis : SynthField S
  zeroShotAnalysis : Option Z
  sarcasmAnalysis : Option (List (List LabelScore))
  politicalBiasAnalysis : Option B
deriving Repr, DecidableEq

/-- promiseResult.reason?.message of a settled promise. -/
def reasonOf {A : Type} : Except String A → Option String
  | .error m => some m
  | .ok _ => none

/-- getResultOrNull of a settled promise. -/
def resultOrNone {A : Type} : Except String A → Option A
  | .ok v => some v
  | .error _ => none

/-- Model of detection-logic.js detectContent. The three classification
calls are a settle-all join: every outcome is computed and captured
independently. When all three succeed, synthesizeWithLLM (the oracle `synth`,
given the sanitized text, the three results and the current date) runs and
its failure propagates as detectContent's own failure, as in the source,
which has no try/catch around it; otherwise the synthesis slot carries the
structured error object. -/
def detectContent {Z B S : Type}
    (sarFetch : String → Except String (List (List LabelScore)))
    (zsFetch : String → List String → Except String Z)
    (pbFetch : String → Except String B)
    (synth : String → Z → SarcasmRes → B → String → Except String S)
    (currentDate : String) (text : String) (labelGroup : List String) :
    Except String (CombinedResult Z B S) :=
  if (jsTrim text).data.length = 0 then .error "Invalid or missing 'text'."
  else if labelGroup.length = 0 then .error "Invalid or missing 'labelGroup'."
  else
    match detectSarcasm sarFetch (detectionSanitizeText text),
        classifyZeroShot zsFetch (detectionSanitizeText text) labelGroup,
        detectPoliticalBias pbFetch (detectionSanitizeText text) with
    | .ok s, .ok z, .ok b =>
      (synth (detectionSanitizeText text) z s b currentDate).map fun v =>
        ⟨.ran v, some z, some s.raw, some b⟩
    | sr, zr, br =>
      .ok ⟨.failedModels "One or more detection models failed."
            ⟨reasonOf sr, reasonOf zr, reasonOf br⟩,
          resultOrNone zr, (resultOrNone sr).map SarcasmRes.raw, resultOrNone br⟩

/-!
## Route handlers and the POST dispatcher (route.js)

Handlers return `Except String (HttpResponse J)`: a thrown error is
`Except.error` (propagating to POST's catch block), while createErrorResponse
returns are ordinary values. The extraction fetch, the Gemini transcription
call and detectContent are oracles; `J` is the combined-result payload type.
The request body is modelled after JSON parsing, with absent-or-falsy string
fields as `Option String`.
-/

structure Article where
  title : String
  content : String
deriving Repr, DecidableEq

inductive RespBody (J : Type) where
  | payload (j : J)
  | errMsg (msg : String)
deriving Repr, DecidableEq

structure HttpResponse (J : Type) where
  status : Nat
  body : RespBody J
deriving Repr, DecidableEq

structure AnalyzeRequest where
  mode : Option String
  query : Option String
  content : Option String
  photo : Option Photo
deriving Repr, DecidableEq

/-- JavaScript falsiness of an optional string field. -/
def falsyStr : Option String → Bool
  | none => true
  | some s => s = ""

/-- Model of detectTextFromImage: the oracle stands for the
safeFetchWithRetry round trip, `Except.ok t` meaning the response carried the
text `t` at candidates[0].content.parts[0].text. Any failure inside the try
block (fetch failure, missing or falsy text) becomes the catch block's
rethrown message; a NO_TEXT_FOUND reply becomes the empty string. -/
def detectTextFromImage (llmO : String → Except String String) (imageData : String) :
    Except String String :=
  match llmO imageData with
  | .error _ => .error "Failed to extract text from image."
  | .ok t =>
    if t = "" then .error "Failed to extract text from image."
    else if jsTrim t = "NO_TEXT_FOUND" then .ok ""
    else .ok t

/-- Model of callDetectionAPI: a detectContent failure is re-thrown with the
internal-server-error message wrapped around it. -/
def callDetectionAPI {J : Type} (detectO : String → Except String J)
    (sanitizedContent : String) : Except String J :=
  match detectO sanitizedContent with
  | .ok r => .ok r
  | .error m => .error ("Internal Server Error while analyzing content: " ++ m)

/-- Model of handleLinkMode. -/
def handleLinkMode {J : Type} (dp : String → String)
    (extractO : String → Except String Article)
    (detectO : String → Except String J) (query : Option String) :
    Except String (HttpResponse J) :=
  if falsyStr query then .ok ⟨400, .errMsg "URL is required for link mode"⟩
  else do
    let validatedUrl ← validateURL (query.getD "")
    let extracted ← extractO validatedUrl
    if extracted.content = "" then
      return ⟨400, .errMsg ("Could not extract article content from the provided URL. " ++
        "Please check if the URL is accessible and contains readable content.")⟩
    let sanitizedContent ← sanitizeText dp extracted.content true
    if sanitizedContent = "" then
      return ⟨400, .errMsg "Text content cannot be empty after sanitization"⟩
    let combinedResults ← callDetectionAPI detectO sanitizedContent
    return ⟨200, .payload combinedResults⟩

/-- Model of handleTextMode. -/
def handleTextMode {J : Type} (dp : String → String)
    (detectO : String → Except String J) (content : Option String) :
    Except String (HttpResponse J) :=
  if falsyStr content then .ok ⟨400, .errMsg "Text content is required for text mode"⟩
  else do
    let sanitizedContent ← sanitizeText dp (content.getD "") false
    if sanitizedContent = "" then
      return ⟨400, .errMsg "Text content cannot be empty after sanitization"⟩
    let combinedResults ← callDetectionAPI detectO sanitizedContent
    return ⟨200, .payload combinedResults⟩

/-- Model of handlePhotoMode. -/
def handlePhotoMode {J : Type} (dp : String → String)
    (llmO : String → Except String String)
    (detectO : String → Except String J) (photo : Option Photo) :
    Except String (HttpResponse J) :=
  match photo with
  | none => .ok ⟨400, .errMsg "Photo is required for photo mode"⟩
  | some ph => do
    let _ ← validatePhoto ph
    let extractedText ← detectTextFromImage llmO ph.data
    let sanitizedContent ← sanitizeText dp extractedText true
    if sanitizedContent = "" ∨ sanitizedContent.data.length < 3 then
      return ⟨400, .errMsg "No discernible text was found in the provided image."⟩
    let combinedResults ← callDetectionAPI detectO sanitizedContent
    return ⟨200, .payload combinedResults⟩

def validModes : List String := ["link", "text", "photo"]

/-- The body of POST's try block: request-shape checks and dispatch. The
invalid-JSON-body branch is before this model's entry point (the request is
already parsed); a non-string mode is modelled by the none case. -/
def postInner {J : Type} (dp : String → String)
    (extractO : String → Except String Article)
    (llmO : String → Except String String)
    (detectO : String → Except String J) (req : AnalyzeRequest) :
    Except String (HttpResponse J) :=
  match req.mode with
  | none => .ok ⟨400, .errMsg "Mode parameter is required and must be a string"⟩
  | some m =>
    if m = "" then .ok ⟨400, .errMsg "Mode parameter is required and must be a string"⟩
    else if ¬(validModes.contains m) then
      .ok ⟨400, .errMsg "Invalid mode. Must be one of: link, text, photo"⟩
    else if m = "link" then handleLinkMode dp extractO detectO req.query
    else if m = "text" then handleTextMode dp detectO req.content
    else handlePhotoMode dp llmO detectO req.photo

/-- The substrings whose presence in a thrown error's message the catch block
of POST accepts for a specific 400 reply. -/
def whitelistPieces : List String :=
  ["URL is required", "Invalid URL format", "URL too long",
   "Access to private/local URLs", "Could not extract article content",
   "Text content is required", "Text content too large",
   "Potentially malicious content detected", "Failed to fetch content",
   "Photo size too large", "Unsupported file type",
   "Photo name contains potentially malicious content",
   "Failed to extract text from image", "Invalid or corrupted photo data"]

/-- The catch block's whitelist test (String.includes is case-sensitive). -/
def whitelistMatch (m : String) : Bool :=
  whitelistPieces.any fun piece => containsSub piece.data m.data

/-- The generic fallback message of the catch block. -/
def genericErrorMsg : String :=
  "An unexpected error occurred while processing your request."

/-- Model of the exported POST handler: run the try block; render a thrown
error as a precise 400 when its message matches the whitelist and as the
generic 500 otherwise. -/
def POST {J : Type} (dp : String → String)
    (extractO : String → Except String Article)
    (llmO : String → Except String String)
    (detectO : String → Except String J) (req : AnalyzeRequest) :
    HttpResponse J :=
  match postInner dp extractO llmO detectO req with
  | .ok r => r
  | .error m =>
    if whitelistMatch m then ⟨400, .errMsg m⟩
    else ⟨500, .errMsg genericErrorMsg⟩

/-!
## Lemmas about trimming
-/

theorem dropTrailing_eq_nil_space {l : List Char} (h : dropTrailing l = []) :
    ∀ c ∈ l, isJsSpace c = true := by
  induction l with
  | nil => intro c hc; cases hc
  | cons x xs ih =>
    rw [dropTrailing] at h
    split at h
    · rename_i hcond
      intro c hc
      rcases List.mem_cons.mp hc with rfl | hmem
      · exact hcond.2
      · exact ih hcond.1 c hmem
    · cases h

theorem dropTrailing_decomp (l : List Char) :
    ∃ w, l = dropTrailing l ++ w ∧ ∀ c ∈ w, isJsSpace c = true := by
  induction l with
  | nil => exact ⟨[], rfl, fun c hc => absurd hc (List.not_mem_nil c)⟩
  | cons x xs ih =>
    rw [dropTrailing]
    split
    · rename_i hcond
      refine ⟨x :: xs, rfl, ?_⟩
      intro c hc
      rcases List.mem_cons.mp hc with rfl | hmem
      · exact hcond.2
      · exact dropTrailing_eq_nil_space hcond.1 c hmem
    · obtain ⟨w, hw, hsp⟩ := ih
      exact ⟨w, by rw [List.cons_append, ← hw], hsp⟩

theorem mem_dropTrailing {x : Char} {l : List Char} (h : x ∈ dropTrailing l) : x ∈ l := by
  induction l with
  | nil => simp [dropTrailing] at h
  | cons c cs ih =>
    rw [dropTrailing] at h
    split at h
    · cases h
    · rcases List.mem_cons.mp h with rfl | hmem
      · exact List.mem_cons_self x cs
      · exact List.mem_cons_of_mem c (ih hmem)

theorem dropTrailing_idem (l : List Char) :
    dropTrailing (dropTrailing l) = dropTrailing l := by
  induction l with
  | nil => rfl
  | cons c cs ih =>
    rw [dropTrailing]
    split
    · rfl
    · rename_i hcond
      rw [dropTrailing, ih]
      split
      · rename_i hcond2
        exact absurd hcond2 hcond
      · rfl

theorem dropTrailing_head {l : List Char} {x : Char} {xs : List Char}
    (h : dropTrailing l = x :: xs) : l.head? = some x := by
  cases l with
  | nil => cases h
  | cons c cs =>
    rw [dropTrailing] at h
    split at h
    · cases h
    · cases h; rfl

theorem dropWhile_head_false (p : Char → Bool) (l : List Char) {x : Char}
    (h : (l.dropWhile p).head? = some x) : p x = false := by
  induction l with
  | nil => cases h
  | cons c cs ih =>
    rw [List.dropWhile_cons] at h
    split at h
    · exact ih h
    · rename_i hc
      cases h
      exact Bool.of_not_eq_true hc

theorem dropWhile_of_head_false {p : Char → Bool} {l : List Char}
    (h : ∀ x, l.head? = some x → p x = false) : l.dropWhile p = l := by
  cases l with
  | nil => rfl
  | cons c cs =>
    rw [List.dropWhile_cons, if_neg]
    simp [h c rfl]

theorem jsTrimL_idem (l : List Char) : jsTrimL (jsTrimL l) = jsTrimL l := by
  rw [jsTrimL, jsTrimL]
  have hdw : (dropTrailing (l.dropWhile isJsSpace)).dropWhile isJsSpace =
      dropTrailing (l.dropWhile isJsSpace) := by
    apply dropWhile_of_head_false
    intro x hx
    cases hhd : dropTrailing (l.dropWhile isJsSpace) with
    | nil => rw [hhd] at hx; cases hx
    | cons y ys =>
      rw [hhd] at hx
      cases hx
      exact dropWhile_head_false isJsSpace l (dropTrailing_head hhd)
  rw [hdw, dropTrailing_idem]

theorem jsTrim_idem (s : String) : jsTrim (jsTrim s) = jsTrim s := by
  show (⟨jsTrimL (jsTrimL s.data)⟩ : String) = ⟨jsTrimL s.data⟩
  rw [jsTrimL_idem]

/-!
## Trim-invariance of the injection matchers

The pattern keywords contain no whitespace character, so stripping leading or
trailing whitespace neither creates nor destroys a match of the three
injectionPatterns tests.
-/

/-- No whitespace character case-folds onto this keyword character. -/
def kwCharOK (k : Char) : Bool := spaceChars.all fun c => c.toLower != k

/-- A usable keyword: non-empty and whitespace-incompatible throughout. -/
def kwListOK (kw : List Char) : Bool := !kw.isEmpty && kw.all kwCharOK

def kwsOK (kws : List (List Char)) : Bool := kws.all kwListOK

theorem isJsSpace_elim {c : Char} (h : isJsSpace c = true) : c ∈ spaceChars := by
  rw [isJsSpace] at h
  simp only [Bool.or_eq_true, decide_eq_true_eq] at h
  rcases h with ((((h | h) | h) | h) | h) | h <;> simp [spaceChars, h]

theorem space_not_word {c : Char} (h : isJsSpace c = true) : isWordChar c = false := by
  have := isJsSpace_elim h
  fin_cases this <;> decide

theorem kwChar_space {k c : Char} (hk : kwCharOK k = true) (hc : isJsSpace c = true) :
    c.toLower ≠ k := by
  have hmem := isJsSpace_elim hc
  have := List.all_eq_true.mp hk c hmem
  simpa using this

theorem matchB_append_spaces (kw : List Char) (hkw : kw.all kwCharOK = true)
    (u w : List Char) (hw : ∀ c ∈ w, isJsSpace c = true) :
    (match prefixOfCI kw (u ++ w) with
      | some r => boundaryAfter r
      | none => false) =
    (match prefixOfCI kw u with
      | some r => boundaryAfter r
      | none => false) := by
  induction kw generalizing u with
  | nil =>
    simp only [prefixOfCI]
    cases u with
    | nil =>
      cases w with
      | nil => rfl
      | cons c w' =>
        simp only [List.nil_append, boundaryAfter]
        have := space_not_word (hw c (List.mem_cons_self c w'))
        simp [this]
    | cons x xs => rfl
  | cons k ks ih =>
    cases u with
    | nil =>
      simp only [List.nil_append]
      cases w with
      | nil => rfl
      | cons c w' =>
        have hne : ¬(c.toLower = k) :=
          kwChar_space (List.all_eq_true.mp hkw k (List.mem_cons_self k ks))
            (hw c (List.mem_cons_self c w'))
        simp [prefixOfCI, hne]
    | cons x xs =>
      simp only [List.cons_append, prefixOfCI]
      by_cases hx : x.toLower = k
      · simp only [if_pos hx]
        exact ih (List.all_eq_true.mpr fun a ha =>
          List.all_eq_true.mp hkw a (List.mem_cons_of_mem k ha)) xs
      · simp [if_neg hx]

theorem matchS_append_spaces (kw : List Char) (hkw : kw.all kwCharOK = true)
    (u w : List Char) (hw : ∀ c ∈ w, isJsSpace c = true) :
    (prefixOfCI kw (u ++ w)).isSome = (prefixOfCI kw u).isSome := by
  induction kw generalizing u with
  | nil => simp [prefixOfCI]
  | cons k ks ih =>
    cases u with
    | nil =>
      cases w with
      | nil => rfl
      | cons c w' =>
        have hne : ¬(c.toLower = k) :=
          kwChar_space (List.all_eq_true.mp hkw k (List.mem_cons_self k ks))
            (hw c (List.mem_cons_self c w'))
        simp [prefixOfCI, hne]
    | cons x xs =>
      simp only [List.cons_append, prefixOfCI]
      by_cases hx : x.toLower = k
      · simp only [if_pos hx]
        exact ih (List.all_eq_true.mpr fun a ha =>
          List.all_eq_true.mp hkw a (List.mem_cons_of_mem k ha)) xs
      · simp [if_neg hx]

theorem kwHit_append_spaces (kws : List (List Char)) (h : kwsOK kws = true)
    (u w : List Char) (hw : ∀ c ∈ w, isJsSpace c = true) :
    kwHit kws (u ++ w) = kwHit kws u := by
  induction kws with
  | nil => rfl
  | cons kw rest ih =>
    have hkw : kwListOK kw = true := List.all_eq_true.mp h kw (List.mem_cons_self kw rest)
    have hrest : kwsOK rest = true := List.all_eq_true.mpr fun a ha =>
      List.all_eq_true.mp h a (List.mem_cons_of_mem kw ha)
    simp only [kwHit, List.any_cons] at *
    rw [matchB_append_spaces kw (Bool.and_elim_right hkw) u w hw, ih hrest]

theorem protoHit_append_spaces (kws : List (List Char)) (h : kwsOK kws = true)
    (u w : List Char) (hw : ∀ c ∈ w, isJsSpace c = true) :
    protoHit kws (u ++ w) = protoHit kws u := by
  induction kws with
  | nil => rfl
  | cons kw rest ih =>
    have hkw : kwListOK kw = true := List.all_eq_true.mp h kw (List.mem_cons_self kw rest)
    have hrest : kwsOK rest = true := List.all_eq_true.mpr fun a ha =>
      List.all_eq_true.mp h a (List.mem_cons_of_mem kw ha)
    simp only [protoHit, List.any_cons] at *
    rw [matchS_append_spaces kw (Bool.and_elim_right hkw) u w hw, ih hrest]

theorem kwHit_space_head (kws : List (List Char)) (h : kwsOK kws = true)
    {c : Char} (hc : isJsSpace c = true) (t : List Char) :
    kwHit kws (c :: t) = false := by
  induction kws with
  | nil => rfl
  | cons kw rest ih =>
    have hkw : kwListOK kw = true := List.all_eq_true.mp h kw (List.mem_cons_self kw rest)
    have hrest : kwsOK rest = true := List.all_eq_true.mpr fun a ha =>
      List.all_eq_true.mp h a (List.mem_cons_of_mem kw ha)
    simp only [kwHit, List.any_cons]
    rw [Bool.or_eq_false_iff]
    constructor
    · cases kw with
      | nil => simp [kwListOK] at hkw
      | cons k ks =>
        have hne : ¬(c.toLower = k) :=
          kwChar_space (List.all_eq_true.mp (Bool.and_elim_right hkw) k
            (List.mem_cons_self k ks)) hc
        simp [prefixOfCI, hne]
    · exact ih hrest

theorem protoHit_space_head (kws : List (List Char)) (h : kwsOK kws = true)
    {c : Char} (hc : isJsSpace c = true) (t : List Char) :
    protoHit kws (c :: t) = false := by
  induction kws with
  | nil => rfl
  | cons kw rest ih =>
    have hkw : kwListOK kw = true := List.all_eq_true.mp h kw (List.mem_cons_self kw rest)
    have hrest : kwsOK rest = true := List.all_eq_true.mpr fun a ha =>
      List.all_eq_true.mp h a (List.mem_cons_of_mem kw ha)
    simp only [protoHit, List.any_cons]
    rw [Bool.or_eq_false_iff]
    constructor
    · cases kw with
      | nil => simp [kwListOK] at hkw
      | cons k ks =>
        have hne : ¬(c.toLower = k) :=
          kwChar_space (List.all_eq_true.mp (Bool.and_elim_right hkw) k
            (List.mem_cons_self k ks)) hc
        simp [prefixOfCI, hne]
    · exact ih hrest

theorem kwScan_spaces (kws : List (List Char)) (h : kwsOK kws = true)
    {w : List Char} (hw : ∀ c ∈ w, isJsSpace c = true) :
    ∀ b, kwScan kws b w = false := by
  induction w with
  | nil => intro b; rfl
  | cons c w' ih =>
    intro b
    have hc : isJsSpace c = true := hw c (List.mem_cons_self c w')
    rw [kwScan, kwHit_space_head kws h hc, Bool.and_false, Bool.false_or]
    exact ih (fun x hx => hw x (List.mem_cons_of_mem c hx)) _

theorem kwScan_append_spaces (kws : List (List Char)) (h : kwsOK kws = true)
    {w : List Char} (hw : ∀ c ∈ w, isJsSpace c = true) :
    ∀ m b, kwScan kws b (m ++ w) = kwScan kws b m := by
  intro m
  induction m with
  | nil =>
    intro b
    rw [List.nil_append, kwScan_spaces kws h hw]
    rfl
  | cons x m' ih =>
    intro b
    rw [List.cons_append, kwScan, kwScan]
    rw [show x :: (m' ++ w) = (x :: m') ++ w from rfl,
      kwHit_append_spaces kws h (x :: m') w hw, ih]

theorem kwScan_cons_space (kws : List (List Char)) (h : kwsOK kws = true)
    {c : Char} (hc : isJsSpace c = true) (t : List Char) :
    kwScan kws false (c :: t) = kwScan kws false t := by
  rw [kwScan, kwHit_space_head kws h hc, Bool.and_false, Bool.false_or,
    space_not_word hc]

theorem kwScan_dropLeading (kws : List (List Char)) (h : kwsOK kws = true)
    (l : List Char) :
    kwScan kws false (l.dropWhile isJsSpace) = kwScan kws false l := by
  induction l with
  | nil => rfl
  | cons c cs ih =>
    rw [List.dropWhile_cons]
    by_cases hc : isJsSpace c = true
    · rw [if_pos (by simp [hc]), ih, kwScan_cons_space kws h hc]
    · rw [if_neg (by simpa using hc)]

theorem kwScan_trim (kws : List (List Char)) (h : kwsOK kws = true) (l : List Char) :
    kwScan kws false (jsTrimL l) = kwScan kws false l := by
  rw [jsTrimL]
  obtain ⟨w, hw, hsp⟩ := dropTrailing_decomp (l.dropWhile isJsSpace)
  calc kwScan kws false (dropTrailing (l.dropWhile isJsSpace))
      = kwScan kws false (dropTrailing (l.dropWhile isJsSpace) ++ w) := by
        rw [kwScan_append_spaces kws h hsp]
    _ = kwScan kws false (l.dropWhile isJsSpace) := by rw [← hw]
    _ = kwScan kws false l := kwScan_dropLeading kws h l

theorem protoScan_spaces (kws : List (List Char)) (h : kwsOK kws = true)
    {w : List Char} (hw : ∀ c ∈ w, isJsSpace c = true) :
    ∀ b, protoScan kws b w = false := by
  induction w with
  | nil => intro b; rfl
  | cons c w' ih =>
    intro b
    have hc : isJsSpace c = true := hw c (List.mem_cons_self c w')
    rw [protoScan, protoHit_space_head kws h hc, Bool.and_false, Bool.false_or]
    exact ih (fun x hx => hw x (List.mem_cons_of_mem c hx)) _

theorem protoScan_append_spaces (kws : List (List Char)) (h : kwsOK kws = true)
    {w : List Char} (hw : ∀ c ∈ w, isJsSpace c = true) :
    ∀ m b, protoScan kws b (m ++ w) = protoScan kws b m := by
  intro m
  induction m with
  | nil =>
    intro b
    rw [List.nil_append, protoScan_spaces kws h hw]
    rfl
  | cons x m' ih =>
    intro b
    rw [List.cons_append, protoScan, protoScan]
    rw [show x :: (m' ++ w) = (x :: m') ++ w from rfl,
      protoHit_append_spaces kws h (x :: m') w hw, ih]

theorem protoScan_cons_space (kws : List (List Char)) (h : kwsOK kws = true)
    {c : Char} (hc : isJsSpace c = true) (t : List Char) :
    protoScan kws true (c :: t) = protoScan kws true t := by
  rw [protoScan, protoHit_space_head kws h hc, Bool.and_false, Bool.false_or, hc]

theorem protoScan_dropLeading (kws : List (List Char)) (h : kwsOK kws = true)
    (l : List Char) :
    protoScan kws true (l.dropWhile isJsSpace) = protoScan kws true l := by
  induction l with
  | nil => rfl
  | cons c cs ih =>
    rw [List.dropWhile_cons]
    by_cases hc : isJsSpace c = true
    · rw [if_pos (by simp [hc]), ih, protoScan_cons_space kws h hc]
    · rw [if_neg (by simpa using hc)]

theorem protoScan_trim (kws : List (List Char)) (h : kwsOK kws = true) (l : List Char) :
    protoScan kws true (jsTrimL l) = protoScan kws true l := by
  rw [jsTrimL]
  obtain ⟨w, hw, hsp⟩ := dropTrailing_decomp (l.dropWhile isJsSpace)
  calc protoScan kws true (dropTrailing (l.dropWhile isJsSpace))
      = protoScan kws true (dropTrailing (l.dropWhile isJsSpace) ++ w) := by
        rw [protoScan_append_spaces kws h hsp]
    _ = protoScan kws true (l.dropWhile isJsSpace) := by rw [← hw]
    _ = protoScan kws true l := protoScan_dropLeading kws h l

/-- Trimming does not change the outcome of the injection-pattern tests. -/
theorem injMatchL_trim (l : List Char) : injMatchL (jsTrimL l) = injMatchL l := by
  rw [injMatchL, injMatchL,
    kwScan_trim sqlKeywords (by decide),
    kwScan_trim timerKeywords (by decide),
    protoScan_trim protoKeywords (by decide)]

/-!
## Claim C6: sanitizeText is idempotent
-/

/-- C6: sanitizeText is idempotent for a fixed skipInjectionCheck flag: when
`sanitizeText x` succeeds, applying sanitizeText to its result succeeds with
the same value. The external DOMPurify sanitizer `dp` is assumed stable on
its own trimmed output (it returns already-serialized markup-free text
unchanged), which is the contract sanitizers satisfy. -/
theorem sanitizeText_idempotent (dp : String → String)
    (hdp : ∀ y, dp (jsTrim (dp y)) = jsTrim (dp y))
    (skip : Bool) (x r : String)
    (h : sanitizeText dp x skip = .ok r) :
    sanitizeText dp r skip = .ok r := by
  rw [sanitizeText] at h
  by_cases h1 : 50000 < (jsTrim (dp x)).data.length
  · rw [if_pos h1] at h
    exact Except.noConfusion h
  · rw [if_neg h1] at h
    by_cases h2 : (!skip && injMatchL (dp x).data) = true
    · rw [if_pos h2] at h
      exact Except.noConfusion h
    · rw [if_neg h2] at h
      injection h with hr
      subst hr
      rw [sanitizeText, hdp x, jsTrim_idem]
      have hinj : injMatchL (jsTrim (dp x)).data = injMatchL (dp x).data := by
        show injMatchL (jsTrimL (dp x).data) = _
        exact injMatchL_trim _
      rw [hinj, if_neg h1, if_neg h2]

/-- C6 witness: a concrete run of the idempotence theorem. -/
theorem sanitizeText_idempotent_witness :
    sanitizeText id "hello" false = .ok "hello" :=
  sanitizeText_idempotent id (fun _ => rfl) false " hello " "hello" (by decide)

/-!
## Claim C7: the SQL string is rejected with the check on, passed with it off
-/

/-- C7: sanitizeText applied to SELECT * FROM users raises the
potential-injection error when the injection check is enabled, and returns
the string unchanged when the check is skipped. DOMPurify is assumed to act
as the identity on this markup-free string. -/
theorem sanitizeText_sql_injection (dp : String → String)
    (hdp : dp "SELECT * FROM users" = "SELECT * FROM users") :
    sanitizeText dp "SELECT * FROM users" false =
      .error "Potentially malicious content detected" ∧
    sanitizeText dp "SELECT * FROM users" true = .ok "SELECT * FROM users" := by
  rw [sanitizeText, sanitizeText, hdp]
  exact ⟨by decide, by decide⟩

/-- C7 witness: the theorem at the identity sanitizer. -/
theorem sanitizeText_sql_injection_witness :
    sanitizeText id "SELECT * FROM users" false =
      .error "Potentially malicious content detected" ∧
    sanitizeText id "SELECT * FROM users" true = .ok "SELECT * FROM users" :=
  sanitizeText_sql_injection id rfl

/-!
## Claim C9: the 50,000-character limit applies to the sanitized trimmed text
-/

/-- C9: sanitizeText raises the too-large error exactly when the sanitized
trimmed text exceeds 50,000 characters — the raw length is never consulted —
and consequently a raw input longer than 50,000 characters is accepted
whenever the sanitizer's output trims to within the limit and is free of
injection patterns. -/
theorem sanitizeText_limit_on_sanitized (dp : String → String) (skip : Bool)
    (x : String) :
    (sanitizeText dp x skip = .error "Text content too large (maximum 50KB allowed)" ↔
      50000 < (jsTrim (dp x)).data.length) ∧
    (50000 < x.data.length → (jsTrim (dp x)).data.length ≤ 50000 →
      injMatchL (dp x).data = false →
      sanitizeText dp x skip = .ok (jsTrim (dp x))) := by
  constructor
  · constructor
    · intro h
      rw [sanitizeText] at h
      by_cases h1 : 50000 < (jsTrim (dp x)).data.length
      · exact h1
      · rw [if_neg h1] at h
        by_cases h2 : (!skip && injMatchL (dp x).data) = true
        · rw [if_pos h2] at h
          injection h with hm
          exact absurd hm (by decide)
        · rw [if_neg h2] at h
          exact Except.noConfusion h
    · intro h
      rw [sanitizeText, if_pos h]
  · intro _hraw hlen hinj
    rw [sanitizeText, if_neg (by omega), if_neg (by simp [hinj])]

/-- A sanitizer discarding everything, a stand-in for DOMPurify on pure
markup input. -/
def dpEmpty : String → String := fun _ => ""

/-- A raw input of 50,001 characters. -/
def bigAText : String := ⟨List.replicate 50001 'a'⟩

/-- C9 witness: a raw input longer than 50,000 characters that sanitizeText
accepts because the sanitized text is within the limit. -/
theorem sanitizeText_limit_witness :
    50000 < bigAText.data.length ∧
    sanitizeText dpEmpty bigAText false = .ok "" := by
  have hlen : bigAText.data.length = 50001 := List.length_replicate 50001 'a'
  refine ⟨by omega, ?_⟩
  exact (sanitizeText_limit_on_sanitized dpEmpty false bigAText).2
    (by omega) (by decide) (by decide)

/-!
## Claim C4: the photo size limit and a passing photo
-/

/-- A well-formed base64 image data URI with a 100-character payload. -/
def goodPhotoData : String := "data:image/png;base64," ++ ⟨List.replicate 100 'A'⟩

/-- C4: a photo of size 11,000,000 (above 10 MiB) is rejected with the
size-limit error, and an otherwise identical photo of size 5,000,000 with
MIME type image/png, a valid name and a well-formed base64 payload of 100
characters is accepted. -/
theorem validatePhoto_size_bounds :
    validatePhoto ⟨goodPhotoData, "photo.png", 11000000, "image/png"⟩ =
      .error "Photo size too large (maximum 10MB allowed)" ∧
    validatePhoto ⟨goodPhotoData, "photo.png", 5000000, "image/png"⟩ =
      .ok ⟨goodPhotoData, "photo.png", 5000000, "image/png"⟩ := by
  constructor <;> decide

/-!
## Claim C8: scheme prepending
-/

/-- C8: for every input whose trimmed form lacks a literal http:// or
https:// prefix, validateURL continues with https:// prepended to the
trimmed input — the parse and every later check runs on the prepended
string; concretely, the schemeless example.com/a validates to
https://example.com/a. -/
theorem validateURL_prepends_https :
    (∀ url : String, jsTrim url ≠ "" →
      "http://".data.isPrefixOf (jsTrim url).data = false →
      "https://".data.isPrefixOf (jsTrim url).data = false →
      validateURL url = validateURLRest ("https://" ++ jsTrim url)) ∧
    validateURL "example.com/a" = .ok "https://example.com/a" := by
  constructor
  · intro url hne h1 h2
    have hurl : url ≠ "" := by
      intro h
      exact hne (by rw [h]; rfl)
    rw [validateURL, if_neg hurl, if_neg hne, withScheme, if_neg]
    rw [h1, h2]
    simp
  · decide

/-- C8 witness: the prepending theorem at a concrete schemeless input. -/
theorem validateURL_prepends_https_witness :
    validateURL "foo.com" = validateURLRest ("https://" ++ jsTrim "foo.com") :=
  validateURL_prepends_https.1 "foo.com" (by decide) (by decide) (by decide)

/-!
## Claim C5: the retry loop on 429,429,200 and on 500,500,500
-/

/-- C5: with three attempts, a 429,429,200 response sequence issues exactly
three fetch calls and returns the parsed payload of the 200 response, and a
500,500,500 sequence issues exactly three calls and propagates the API error
of the third. -/
theorem safeFetchWithRetry_sequences {J : Type}
    (f g : Nat → FetchOutcome J) (t0 t1 t2 u0 u1 u2 : String)
    (b0 b1 : Except String J) (j : J) (d0 d1 d2 : Except String J)
    (hf0 : f 0 = .resp 429 t0 b0) (hf1 : f 1 = .resp 429 t1 b1)
    (hf2 : f 2 = .resp 200 t2 (.ok j))
    (hg0 : g 0 = .resp 500 u0 d0) (hg1 : g 1 = .resp 500 u1 d1)
    (hg2 : g 2 = .resp 500 u2 d2) :
    safeFetchWithRetry f 3 = (.ok (some j), 3) ∧
    safeFetchWithRetry g 3 = (.error (apiErrorMsg 500 u2), 3) := by
  constructor
  · rw [safeFetchWithRetry, safeFetchGo, hf0]
    norm_num
    rw [safeFetchGo, hf1]
    norm_num
    rw [safeFetchGo, hf2]
    norm_num
  · rw [safeFetchWithRetry, safeFetchGo, hg0]
    norm_num
    rw [safeFetchGo, hg1]
    norm_num
    rw [safeFetchGo, hg2]
    norm_num

/-- The 429,429,200 oracle of the C5 witness. -/
def fetch429Seq : Nat → FetchOutcome Nat := fun n =>
  if n = 0 then .resp 429 "Too Many Requests" (.error "ratelimited")
  else if n = 1 then .resp 429 "Too Many Requests" (.error "ratelimited")
  else .resp 200 "OK" (.ok 42)

/-- The 500,500,500 oracle of the C5 witness. -/
def fetch500Seq : Nat → FetchOutcome Nat := fun _ =>
  .resp 500 "Internal Server Error" (.error "boom")

/-- C5 witness: the retry theorem at the two concrete response sequences. -/
theorem safeFetchWithRetry_sequences_witness :
    safeFetchWithRetry fetch429Seq 3 = (.ok (some 42), 3) ∧
    safeFetchWithRetry fetch500Seq 3 =
      (.error (apiErrorMsg 500 "Internal Server Error"), 3) :=
  safeFetchWithRetry_sequences fetch429Seq fetch500Seq
    "Too Many Requests" "Too Many Requests" "OK"
    "Internal Server Error" "Internal Server Error" "Internal Server Error"
    (.error "ratelimited") (.error "ratelimited") 42
    (.error "boom") (.error "boom") (.error "boom")
    rfl rfl rfl rfl rfl rfl

/-!
## Claim C2: settle-all join and partial-failure synthesis
-/

/-- C2: detectContent captures all three classification outcomes
independently; synthesis runs exactly when all three succeed, and when
exactly one fails the returned object still carries the populated analyses
of the two successes while its synthesis slot is the structured error object
naming the failed call with its captured failure reason. -/
theorem detectContent_settle_all {Z B S : Type}
    (sarFetch : String → Except String (List (List LabelScore)))
    (zsFetch : String → List String → Except String Z)
    (pbFetch : String → Except String B)
    (synth : String → Z → SarcasmRes → B → String → Except String S)
    (date text : String) (labelGroup : List String)
    (htext : ¬((jsTrim text).data.length = 0))
    (hlabels : ¬(labelGroup.length = 0)) :
    (∀ s z b v, detectSarcasm sarFetch (detectionSanitizeText text) = .ok s →
      classifyZeroShot zsFetch (detectionSanitizeText text) labelGroup = .ok z →
      detectPoliticalBias pbFetch (detectionSanitizeText text) = .ok b →
      synth (detectionSanitizeText text) z s b date = .ok v →
      detectContent sarFetch zsFetch pbFetch synth date text labelGroup =
        .ok ⟨.ran v, some z, some s.raw, some b⟩) ∧
    (∀ m z b, detectSarcasm sarFetch (detectionSanitizeText text) = .error m →
      classifyZeroShot zsFetch (detectionSanitizeText text) labelGroup = .ok z →
      detectPoliticalBias pbFetch (detectionSanitizeText text) = .ok b →
      detectContent sarFetch zsFetch pbFetch synth date text labelGroup =
        .ok ⟨.failedModels "One or more detection models failed."
          ⟨some m, none, none⟩, some z, none, some b⟩) ∧
    (∀ s m b, detectSarcasm sarFetch (detectionSanitizeText text) = .ok s →
      classifyZeroShot zsFetch (detectionSanitizeText text) labelGroup = .error m →
      detectPoliticalBias pbFetch (detectionSanitizeText text) = .ok b →
      detectContent sarFetch zsFetch pbFetch synth date text labelGroup =
        .ok ⟨.failedModels "One or more detection models failed."
          ⟨none, some m, none⟩, none, some s.raw, some b⟩) ∧
    (∀ s z m, detectSarcasm sarFetch (detectionSanitizeText text) = .ok s →
      classifyZeroShot zsFetch (detectionSanitizeText text) labelGroup = .ok z →
      detectPoliticalBias pbFetch (detectionSanitizeText text) = .error m →
      detectContent sarFetch zsFetch pbFetch synth date text labelGroup =
        .ok ⟨.failedModels "One or more detection models failed."
          ⟨none, none, some m⟩, some z, some s.raw, none⟩) ∧
    (∀ r v, detectContent sarFetch zsFetch pbFetch synth date text labelGroup = .ok r →
      r.synthesis = .ran v →
      (∃ s, detectSarcasm sarFetch (detectionSanitizeText text) = .ok s) ∧
      (∃ z, classifyZeroShot zsFetch (detectionSanitizeText text) labelGroup = .ok z) ∧
      (∃ b, detectPoliticalBias pbFetch (detectionSanitizeText text) = .ok b)) := by
  refine ⟨?_, ?_, ?_, ?_, ?_⟩
  · intro s z b v hs hz hb hv
    rw [detectContent, if_neg htext, if_neg hlabels, hs, hz, hb]
    show Except.map _ (synth (detectionSanitizeText text) z s b date) = _
    rw [hv]
    rfl
  · intro m z b hs hz hb
    rw [detectContent, if_neg htext, if_neg hlabels, hs, hz, hb]
    rfl
  · intro s m b hs hz hb
    rw [detectContent, if_neg htext, if_neg hlabels, hs, hz, hb]
    rfl
  · intro s z m hs hz hb
    rw [detectContent, if_neg htext, if_neg hlabels, hs, hz, hb]
    rfl
  · intro r v hr hsyn
    rw [detectContent, if_neg htext, if_neg hlabels] at hr
    cases hs : detectSarcasm sarFetch (detectionSanitizeText text) with
    | error m =>
      rw [hs] at hr
      injection hr with hr'
      rw [← hr'] at hsyn
      exact absurd hsyn (by intro h; exact SynthField.noConfusion h)
    | ok s =>
      cases hz : classifyZeroShot zsFetch (detectionSanitizeText text) labelGroup with
      | error m =>
        rw [hs, hz] at hr
        injection hr with hr'
        rw [← hr'] at hsyn
        exact absurd hsyn (by intro h; exact SynthField.noConfusion h)
      | ok z =>
        cases hb : detectPoliticalBias pbFetch (detectionSanitizeText text) with
        | error m =>
          rw [hs, hz, hb] at hr
          injection hr with hr'
          rw [← hr'] at hsyn
          exact absurd hsyn (by intro h; exact SynthField.noConfusion h)
        | ok b =>
          exact ⟨⟨s, rfl⟩, ⟨z, rfl⟩, ⟨b, rfl⟩⟩

/-- C2 witness oracles: the sarcasm model fails, the other two succeed. -/
def sarFetchDown : String → Except String (List (List LabelScore)) :=
  fun _ => .error "sarcasm model unavailable"

def zsFetchUp : String → List String → Except String Nat := fun _ _ => .ok 1

def pbFetchUp : String → Except String Nat := fun _ => .ok 2

def synthUp : String → Nat → SarcasmRes → Nat → String → Except String Nat :=
  fun _ _ _ _ _ => .ok 3

/-- C2 witness: with the sarcasm call failing, the other two analyses are
populated and the synthesis slot names the failed call with its reason. -/
theorem detectContent_settle_all_witness :
    detectContent sarFetchDown zsFetchUp pbFetchUp synthUp "today" "hi" ["x"] =
      .ok ⟨.failedModels "One or more detection models failed."
        ⟨some "sarcasm model unavailable", none, none⟩, some 1, none, some 2⟩ :=
  (detectContent_settle_all sarFetchDown zsFetchUp pbFetchUp synthUp "today" "hi" ["x"]
    (by decide) (by decide)).2.1 "sarcasm model unavailable" 1 2 rfl rfl rfl

/-!
## Claim C10: the text sent to the models
-/

theorem mem_replaceCharL {x c : Char} {r l : List Char}
    (h : x ∈ replaceCharL c r l) : x ∈ r ∨ (x ∈ l ∧ x ≠ c) := by
  induction l with
  | nil => cases h
  | cons y ys ih =>
    rw [replaceCharL] at h
    rcases List.mem_append.mp h with h1 | h2
    · by_cases hy : y = c
      · rw [if_pos hy] at h1
        exact Or.inl h1
      · rw [if_neg hy] at h1
        rcases List.mem_singleton.mp h1 with rfl
        exact Or.inr ⟨List.mem_cons_self x ys, hy⟩
    · rcases ih h2 with h3 | ⟨h4, h5⟩
      · exact Or.inl h3
      · exact Or.inr ⟨List.mem_cons_of_mem y h4, h5⟩

theorem mem_jsTrimL {x : Char} {l : List Char} (h : x ∈ jsTrimL l) : x ∈ l := by
  rw [jsTrimL] at h
  have h2 := mem_dropTrailing h
  exact (List.dropWhile_sublist isJsSpace (l := l)).mem h2

/-- No raw angle bracket occurs in the string. -/
def noAngle (s : String) : Prop := '<' ∉ s.data ∧ '>' ∉ s.data

theorem detectionSanitizeText_noAngle (t : String) :
    noAngle (detectionSanitizeText t) := by
  constructor
  · intro h
    have h1 := mem_jsTrimL h
    rcases mem_replaceCharL h1 with h2 | ⟨h3, _⟩
    · exact absurd h2 (by decide)
    · rcases mem_replaceCharL h3 with h4 | ⟨_, h5⟩
      · exact absurd h4 (by decide)
      · exact h5 rfl
  · intro h
    have h1 := mem_jsTrimL h
    rcases mem_replaceCharL h1 with h2 | ⟨h3, h4⟩
    · exact absurd h2 (by decide)
    · exact h4 rfl

theorem noAngle_jsSlice {n : Nat} {s : String} (h : noAngle s) :
    noAngle (jsSlice n s) := by
  constructor
  · intro hm
    exact h.1 ((List.take_sublist n s.data).mem hm)
  · intro hm
    exact h.2 ((List.take_sublist n s.data).mem hm)

/-- C10 (amended): the text the orchestrator forwards is its own re-encoding
of the input — angle brackets entity-encoded, then trimmed — sent whole to
the zero-shot call (and to synthesis, which receives the same sanitized
text), and truncated to the first 2000 and 500 characters for the sarcasm
and political-bias calls; none of the forwarded strings contains a raw
angle-bracket character. -/
theorem detectContent_sent_text {B : Type} (text : String) :
    (∀ sarFetch, detectSarcasm sarFetch (detectionSanitizeText text) =
      (sarFetch (sarcasmSentText text)).map fun raw =>
        ⟨raw, extractSarcasmScore raw⟩) ∧
    (∀ zsFetch : String → List String → Except String B, ∀ labels,
      classifyZeroShot zsFetch (detectionSanitizeText text) labels =
        zsFetch (detectionSanitizeText text) labels) ∧
    (∀ pbFetch : String → Except String B,
      detectPoliticalBias pbFetch (detectionSanitizeText text) =
        pbFetch (politicalBiasSentText text)) ∧
    noAngle (detectionSanitizeText text) ∧
    noAngle (sarcasmSentText text) ∧
    noAngle (politicalBiasSentText text) := by
  refine ⟨fun _ => rfl, fun _ _ => rfl, fun _ => rfl, ?_, ?_, ?_⟩
  · exact detectionSanitizeText_noAngle text
  · exact noAngle_jsSlice (detectionSanitizeText_noAngle text)
  · exact noAngle_jsSlice (detectionSanitizeText_noAngle text)

/-- A 501-character input for the truncation counterexample. -/
def longAText : String := ⟨List.replicate 501 'a'⟩

theorem replicateA_replaceCharL (c : Char) (r : List Char) (hc : c ≠ 'a') (n : Nat) :
    replaceCharL c r (List.replicate n 'a') = List.replicate n 'a' := by
  induction n with
  | zero => rfl
  | succ k ih =>
    rw [List.replicate_succ, replaceCharL, if_neg (fun h => hc h.symm), ih]
    rfl

theorem replicateA_dropTrailing (n : Nat) :
    dropTrailing (List.replicate n 'a') = List.replicate n 'a' := by
  induction n with
  | zero => rfl
  | succ k ih =>
    rw [List.replicate_succ, dropTrailing, ih, if_neg]
    intro h
    exact absurd h.2 (by decide)

theorem replicateA_sanitize (n : Nat) :
    detectionSanitizeText ⟨List.replicate n 'a'⟩ = ⟨List.replicate n 'a'⟩ := by
  rw [detectionSanitizeText]
  show (⟨jsTrimL (replaceCharL '>' "&gt;".data
    (replaceCharL '<' "&lt;".data (List.replicate n 'a')))⟩ : String) = _
  rw [replicateA_replaceCharL '<' _ (by decide), replicateA_replaceCharL '>' _ (by decide),
    jsTrimL]
  cases n with
  | zero => rfl
  | succ k =>
    rw [List.replicate_succ, List.dropWhile_cons, if_neg (by decide),
      ← List.replicate_succ, replicateA_dropTrailing]

/-- C10 counterexample: on a 501-character input, the text sent to the
political-bias call is the 500-character truncation, not the re-encoded
input itself — the claim that all three calls receive the re-encoding
verbatim fails. -/
theorem detectContent_sent_text_counterexample :
    politicalBiasSentText longAText ≠ detectionSanitizeText longAText := by
  intro h
  rw [politicalBiasSentText, longAText, replicateA_sanitize, jsSlice] at h
  have hd := congrArg String.data h
  simp only [List.take_replicate] at hd
  have hlen := congrArg List.length hd
  simp only [List.length_replicate] at hlen
  rw [politicalBiasMaxLength] at hlen
  omega

/-!
## Claim C1: SSRF rejection
-/

/-- C1 (amended): whenever the effective URL (the trimmed input, with
https:// prepended when the literal http:// or https:// prefix is absent)
parses with a hostname on the fixed local-hostname denylist
(case-insensitively) or with a hostname that is a syntactically valid
unbracketed IP literal, validateURL never validates the input. Denylisted
hostnames are rejected with the PrivateNetworkAccess message when no earlier
check fires first — as on http://localhost:8080/admin, on hostname case
permutations, and on the schemeless localhost:8080/admin — while every valid
IP-literal hostname, private or public, is rejected with the TypeError of
the missing ipaddr.js method instead. -/
theorem validateURL_blocks_private :
    (∀ url p, parseHttpURL (withScheme (jsTrim url)) = some p →
      (suspiciousHostnames.contains ⟨toLowerL p.hostname.data⟩ = true ∨
        ipaddrIsValid p.hostname.data = true) →
      ∀ s, validateURL url ≠ .ok s) ∧
    validateURL "http://localhost:8080/admin" = .error pnaMsg ∧
    validateURL "http://LOCALHOST:8080/admin" = .error pnaMsg ∧
    validateURL "localhost:8080/admin" = .error pnaMsg ∧
    validateURL "http://192.168.1.1/x" = .error ipaddrNoMethodMsg ∧
    validateURL "http://127.0.0.1/" = .error ipaddrNoMethodMsg ∧
    validateURL "http://224.0.0.1/" = .error ipaddrNoMethodMsg := by
  refine ⟨?_, by decide, by decide, by decide, by decide, by decide, by decide⟩
  intro url p hp hblock s hok
  rw [validateURL] at hok
  by_cases h0 : url = ""
  · rw [if_pos h0] at hok
    exact Except.noConfusion hok
  rw [if_neg h0] at hok
  by_cases h1 : jsTrim url = ""
  · rw [if_pos h1] at hok
    exact Except.noConfusion hok
  rw [if_neg h1, validateURLRest] at hok
  split at hok
  · rename_i heq
    rw [hp] at heq
    exact Option.noConfusion heq
  rename_i parsedUrl heq
  rw [hp] at heq
  injection heq with heq'
  subst heq'
  by_cases h2 : ¬(p.protocol = "http:" ∨ p.protocol = "https:")
  · rw [if_pos h2] at hok
    exact Except.noConfusion hok
  rw [if_neg h2] at hok
  by_cases h3 : 2048 < (withScheme (jsTrim url)).data.length
  · rw [if_pos h3] at hok
    exact Except.noConfusion hok
  rw [if_neg h3] at hok
  by_cases h4 : urlSuspicious (withScheme (jsTrim url)).data = true
  · rw [if_pos h4] at hok
    exact Except.noConfusion hok
  rw [if_neg h4] at hok
  by_cases h5 : suspiciousHostnames.contains ⟨toLowerL p.hostname.data⟩ = true
  · rw [if_pos h5] at hok
    exact Except.noConfusion hok
  rw [if_neg h5] at hok
  rcases hblock with hden | hip
  · exact h5 hden
  rw [if_pos hip] at hok
  exact Except.noConfusion hok

/-- C1 witness: the universal rejection theorem applied to a concrete
denylisted input. -/
theorem validateURL_blocks_private_witness :
    validateURL "https://LocalHost/x" ≠ .ok "https://LocalHost/x" :=
  validateURL_blocks_private.1 "https://LocalHost/x" ⟨"https:", "localhost"⟩
    (by decide) (Or.inl (by decide)) "https://LocalHost/x"

/-- C1 counterexample: an RFC1918 IP literal (192.168.1.1) is rejected, but
with the TypeError message of the missing ipaddr.js isPrivate method — the
library exposes ranges only through range() — not with the
PrivateNetworkAccess message, refuting the claimed rejection kind; a
bracketed IPv6 loopback URL is accepted outright, since the WHATWG hostname
keeps its brackets and matches neither the denylist entry ::1 nor
ipaddr.isValid; and a denylisted hostname combined with a path-traversal
segment is rejected with the suspicious-pattern message, not the
private-network one. -/
theorem validateURL_blocks_private_counterexample :
    validateURL "http://192.168.1.1/x" = .error ipaddrNoMethodMsg ∧
    ipaddrNoMethodMsg ≠ pnaMsg ∧
    validateURL "http://[::1]/" = .ok "http://[::1]/" ∧
    validateURL "http://localhost/a/../b" =
      .error "URL contains potentially malicious content" := by
  refine ⟨by decide, by decide, by decide, by decide⟩

/-!
## Claim C3: how validation errors render at the request boundary
-/

/-- The reachable validation-error messages the catch block's whitelist
matches: these come back as precise 400 replies. -/
def c3Whitelisted : List String :=
  [pnaMsg, "Invalid URL format", "URL too long (maximum 2048 characters allowed)",
   "Text content too large (maximum 50KB allowed)",
   "Potentially malicious content detected",
   "Photo size too large (maximum 10MB allowed)",
   "Unsupported file type. Only JPEG, PNG, GIF, WebP, and BMP are allowed",
   "Photo name contains potentially malicious content",
   "Invalid or corrupted photo data",
   "Failed to extract text from image."]

/-- Validation-error messages the whitelist does not match: these collapse
to the generic 500 reply. -/
def c3Unlisted : List String :=
  ["URL cannot be empty",
   "URL contains potentially malicious content",
   "Photo data is incomplete or invalid",
   "Invalid photo size",
   "Photo name too long (maximum 255 characters allowed)",
   "Invalid photo data format - must be base64 encoded image"]

/-- C3 (amended): a validation error thrown during request handling is
rendered as a 400 carrying its precise message exactly when the catch
block's whitelist matches the message; the whitelisted messages include the
private-network, format, URL-length, text-size, injection, photo-size,
file-type, photo-name-malicious and corrupted-photo errors, but the
suspicious-URL-pattern, empty-trimmed-URL, incomplete-photo, invalid-size,
photo-name-length and photo-data-format errors fall through to the generic
500 reply. -/
theorem post_validation_errors {J : Type} (dp : String → String)
    (extractO : String → Except String Article)
    (llmO : String → Except String String)
    (detectO : String → Except String J) (req : AnalyzeRequest) (m : String)
    (h : postInner dp extractO llmO detectO req = .error m) :
    (m ∈ c3Whitelisted →
      POST dp extractO llmO detectO req = ⟨400, .errMsg m⟩) ∧
    (m ∈ c3Unlisted →
      POST dp extractO llmO detectO req = ⟨500, .errMsg genericErrorMsg⟩) := by
  constructor
  · intro hm
    rw [POST, h]
    have hw : whitelistMatch m = true := by
      fin_cases hm <;> decide
    show (if whitelistMatch m = true then (⟨400, .errMsg m⟩ : HttpResponse J)
      else ⟨500, .errMsg genericErrorMsg⟩) = ⟨400, .errMsg m⟩
    rw [if_pos hw]
  · intro hm
    rw [POST, h]
    have hw : whitelistMatch m = false := by
      fin_cases hm <;> decide
    show (if whitelistMatch m = true then (⟨400, .errMsg m⟩ : HttpResponse J)
      else ⟨500, .errMsg genericErrorMsg⟩) = ⟨500, .errMsg genericErrorMsg⟩
    rw [if_neg (by simp [hw])]

/-- Oracle stand-ins for the C3 runs (unreached: validation throws first). -/
def extractFail : String → Except String Article :=
  fun _ => .error "Request failed with error code 500"

def llmFail : String → Except String String := fun _ => .error "no response"

def detectFail : String → Except String Nat := fun _ => .error "models down"

/-- C3 witness: a whitelisted validation error (private-network access)
comes back as a precise 400. -/
theorem post_validation_errors_witness :
    POST id extractFail llmFail detectFail
      ⟨some "link", some "http://localhost/x", none, none⟩ =
      ⟨400, .errMsg pnaMsg⟩ :=
  (post_validation_errors id extractFail llmFail detectFail
    ⟨some "link", some "http://localhost/x", none, none⟩ pnaMsg (by decide)).1
    (by decide)

/-- C3 counterexample: the SuspiciousPattern validation error (a URL with a
path-traversal segment) is thrown with its rule-describing message, yet the
POST handler returns the generic 500 reply, not a precise 400 — its message
is absent from the catch block's whitelist. -/
theorem post_validation_errors_counterexample :
    postInner id extractFail llmFail detectFail
      ⟨some "link", some "http://a.com/../x", none, none⟩ =
      .error "URL contains potentially malicious content" ∧
    POST id extractFail llmFail detectFail
      ⟨some "link", some "http://a.com/../x", none, none⟩ =
      ⟨500, .errMsg genericErrorMsg⟩ :=
  ⟨by decide, by decide⟩
